import Mathlib

/-!
Verification of the pull-through container-registry cache in `src/registry.ts`.

The TypeScript source is shallowly embedded: pure helpers (`parseDigest`, the
header manipulation done via the `Headers` class) become Lean functions;
stateful operations (`resolveTagToDigest`, `importBlob`, `importAll`,
`pullThroughRegistry`, `getObject`) become functions over explicit store /
upstream-oracle parameters that additionally return the trace of store events
and upstream requests they would perform, so that claims about side effects
(writes, multipart aborts, fetch counts) are statable.
-/

namespace Depot

/-! ## Headers (the case-insensitive `Headers` class) -/

/-- ASCII lowercasing of one character. -/
def lowerChar (c : Char) : Char :=
  if 'A' ≤ c ∧ c ≤ 'Z' then Char.ofNat (c.toNat + 32) else c

/-- Header keys compare case-insensitively, as in the WHATWG `Headers` class
(header names are ASCII). -/
def normKey (k : String) : String := String.mk (k.data.map lowerChar)

/-- A header map: lookup by normalized key. -/
abbrev HeaderMap := String → Option String

def hempty : HeaderMap := fun _ => none

/-- `headers.set(k, v)`: overwrite the (case-insensitive) key `k` with `v`. -/
def hset (hs : HeaderMap) (k v : String) : HeaderMap :=
  fun q => if q = normKey k then some v else hs q

/-- `headers.get(k)`: case-insensitive lookup, `null` when absent. -/
def hget (hs : HeaderMap) (k : String) : Option String := hs (normKey k)

/-! ## Response bodies and HTTP responses -/

/-- A response body: either opaque content bytes, or the JSON error envelope
`\x7b errors: [\x7b code \x7d ...] \x7d` that the `json` helper produces. -/
inductive RBody where
  | content (data : String)
  | errors (codes : List String)
deriving DecidableEq, Repr

structure HttpResponse where
  status : Nat
  headers : HeaderMap
  body : Option RBody

/-- `res.ok`: status in the 2xx range. -/
def resOk (r : HttpResponse) : Bool := 200 ≤ r.status && r.status ≤ 299

/-- The `response` helper (registry.ts line 105): wraps a body and always sets
the `Docker-Distribution-API-Version` header. -/
def response (body : Option RBody) (status : Nat) (headers : HeaderMap) : HttpResponse :=
  ⟨status, hset headers "Docker-Distribution-API-Version" "registry/2.0", body⟩

/-- The `emptyResponse` helper: `response(null, init)`; status defaults to 200. -/
def emptyResponse (headers : HeaderMap) : HttpResponse :=
  response none 200 headers

/-- The `json` helper: JSON error envelope, `Content-Type: application/json`,
then `response` (which adds the API-version header). -/
def json (codes : List String) (status : Nat) : HttpResponse :=
  response (some (RBody.errors codes)) status (hset hempty "Content-Type" "application/json")

/-! ## Identifier parsing (`parseDigest`, registry.ts lines 343-351)

The digest schema regex is `^[a-z0-9]+(?:[.+_-][a-z0-9]+)*:[a-zA-Z0-9=_-]+$`.
Neither the algorithm part nor the hash part may contain `:`, so a string is in
the regex's language iff it splits at its unique colon into an algorithm part
matched by `[a-z0-9]+(?:[.+_-][a-z0-9]+)*` and a nonempty hash part over
`[A-Za-z0-9=_-]`.  The algorithm sub-language is recognized by a two-state
machine (`algRun`): `needSeg = true` means the current segment still owes at
least one alphanumeric character. -/

def isLowerAlnum (c : Char) : Bool :=
  ('a' ≤ c && c ≤ 'z') || ('0' ≤ c && c ≤ '9')

def isSepChar (c : Char) : Bool :=
  c = '.' || c = '+' || c = '_' || c = '-'

def algRun : Bool → List Char → Bool
  | needSeg, [] => !needSeg
  | needSeg, c :: cs =>
    if isLowerAlnum c then algRun false cs
    else if isSepChar c && !needSeg then algRun true cs
    else false

/-- Matcher for the regex fragment `[a-z0-9]+(?:[.+_-][a-z0-9]+)*`. -/
def algMatch (cs : List Char) : Bool := algRun true cs

def isHashChar (c : Char) : Bool :=
  ('a' ≤ c && c ≤ 'z') || ('A' ≤ c && c ≤ 'Z') || ('0' ≤ c && c ≤ '9') ||
    c = '=' || c = '_' || c = '-'

/-- Matcher for the regex fragment `[a-zA-Z0-9=_-]+`. -/
def hashMatch (cs : List Char) : Bool := !cs.isEmpty && cs.all isHashChar

/-- Split a char list at its first `':'`; `none` when there is no colon.
Models `x.split(':')` under the digest regex, which admits exactly one colon. -/
def splitAtColon : List Char → Option (List Char × List Char)
  | [] => none
  | c :: cs =>
    if c = ':' then some ([], cs)
    else (splitAtColon cs).map (fun p => (c :: p.1, p.2))

/-- Language of the `digestSchema` regex. -/
def digestMatch (s : String) : Bool :=
  match splitAtColon s.data with
  | some (a, h) => algMatch a && hashMatch h
  | none => false

structure Digest where
  algorithm : String
  hash : String
  digest : String
deriving DecidableEq, Repr

/-- `parseDigest` (registry.ts line 344): regex check, split at the colon,
then require a recognized algorithm and a nonempty hash. -/
def parseDigest (s : String) : Option Digest :=
  if digestMatch s then
    match splitAtColon s.data with
    | some (a, h) =>
      let algorithm := String.mk a
      let hash := String.mk h
      if algorithm = "sha256" ∨ algorithm = "sha384" ∨ algorithm = "sha512" then
        if hash = "" then none else some ⟨algorithm, hash, s⟩
      else none
    | none => none
  else none

/-- The spec-side description of a recognized algorithm token. -/
def recognizedAlg (a : String) : Prop := a = "sha256" ∨ a = "sha384" ∨ a = "sha512"

/-- The spec-side description of a valid hash segment: nonempty over
`[A-Za-z0-9=_-]`. -/
def validHash (h : String) : Prop := h ≠ "" ∧ h.data.all isHashChar = true

/-! ## Tag resolver (`resolveTagToDigest`, registry.ts lines 263-275)

The R2 store is abstracted as a map from keys to stored text (only the textual
tag mapping is read back by this function).  The single upstream fetch the
function may perform is abstracted by the response it would receive; the
result records whether that fetch happened and the store after the call. -/

abbrev Store := String → Option String

def sget (st : Store) (k : String) : Option String := st k

def sput (st : Store) (k v : String) : Store :=
  fun q => if q = k then some v else st q

structure ResolveResult where
  result : Option Digest
  store : Store
  fetched : Bool

/-- `resolveTagToDigest`: cached mapping first; otherwise fetch the manifest by
tag from upstream, require a truthy `Docker-Content-Digest` header, persist the
raw header value, and return its parse. -/
def resolveTagToDigest (st : Store) (upstream : HttpResponse) (name tag : String) :
    ResolveResult :=
  let key := name ++ "/tags/" ++ tag
  match sget st key with
  | some text => ⟨parseDigest text, st, false⟩
  | none =>
    if resOk upstream = false then ⟨none, st, true⟩
    else
      match hget upstream.headers "Docker-Content-Digest" with
      | none => ⟨none, st, true⟩
      | some d =>
        -- `if (!digest) return null`: the empty string is falsy in JS
        if d = "" then ⟨none, st, true⟩
        else ⟨parseDigest d, sput st key d, true⟩

/-! ## Pull-through resolver (`pullThroughRegistry`, registry.ts lines 125-144)

The two possible store reads are abstracted by their results (`read1` for the
first call of `fromR2`, `read2` for the re-read after populating); `populate`
is the response of the single possible `fromRegistry` call.  The result counts
how many reads and populate calls were performed. -/

structure PullResult where
  res : HttpResponse
  reads : Nat
  populates : Nat

def pullThroughRegistry (method : String) (read1 read2 : Option HttpResponse)
    (populate : HttpResponse) : PullResult :=
  if method = "HEAD" then
    match read1 with
    | some o => ⟨o, 1, 0⟩
    | none =>
      if resOk populate = false then ⟨populate, 1, 1⟩
      else
        match read2 with
        | some o => ⟨o, 2, 1⟩
        | none => ⟨json ["BLOB_UNKNOWN"] 404, 2, 1⟩
  else
    match read1 with
    | some o => ⟨o, 1, 0⟩
    | none => ⟨populate, 1, 1⟩

/-! ## Import engine: `importManifest` (registry.ts lines 146-161)

`upstream` is the response of the manifest fetch; `readBack` is the body found
by the `storage.get` that follows the `storage.put` (`none` models the
transient store inconsistency).  `stored` records whether the put happened. -/

structure ImportManifestResult where
  res : HttpResponse
  stored : Bool

def importManifest (upstream : HttpResponse) (readBack : Option RBody) :
    ImportManifestResult :=
  if resOk upstream = false ∨ upstream.body = none then ⟨upstream, false⟩
  else
    match readBack with
    | none => ⟨⟨404, hempty, none⟩, true⟩          -- new Response(null, \x7bstatus: 404\x7d)
    | some b => ⟨⟨upstream.status, upstream.headers, some b⟩, true⟩

/-! ## Import engine: `importBlob` (registry.ts lines 163-210)

The initial blob fetch is `upstream`; the ranged fetch for part `idx` is
`partRes idx`.  The result records the ordered `Range` headers of the part
fetches that were issued and the ordered store events, so that the multipart
protocol (create / uploadPart / complete / abort, or a single `put`) is
observable. -/

inductive StoreEvent where
  | putObject (key : String)
  | createUpload (key : String)
  | uploadPart (num : Nat)
  | completeUpload (parts : List Nat)
  | abortUpload
deriving DecidableEq, Repr

def partSize : Nat := 1024 * 1024 * 250

/-- Decimal parse of a digit string (`none` when empty or non-numeric). -/
def strToNat (s : String) : Option Nat :=
  if s.data ≠ [] ∧ s.data.all Char.isDigit = true then
    some (s.data.foldl (fun n c => n * 10 + (c.toNat - 48)) 0)
  else none

/-- `Number(res.headers.get('content-length') ?? 0)`, for natural-number header
values (any non-numeric header behaves like the comparison-failing `NaN`,
i.e. like 0 for the branch decision). -/
def contentLengthOf (r : HttpResponse) : Nat :=
  match hget r.headers "content-length" with
  | none => 0
  | some s => (strToNat s).getD 0

/-- The `Range` header of the ranged fetch for part `idx`. -/
def partRange (idx : Nat) : String :=
  "bytes=" ++ toString (idx * partSize) ++ "-" ++ toString ((idx + 1) * partSize - 1)

/-- `Math.ceil(contentLength / partSize)`. -/
def numParts (contentLength : Nat) : Nat := (contentLength + partSize - 1) / partSize

/-- A part fetch succeeds when the ranged response is 2xx and has a body. -/
def goodPart (r : HttpResponse) : Bool := resOk r && r.body.isSome

structure LoopState where
  parts : List Nat        -- tokens of the parts uploaded so far (part numbers)
  ranges : List String    -- Range headers issued so far
deriving DecidableEq, Repr

/-- The part loop: `rem` parts remain, the next part index is `idx`.  Each step
issues the ranged fetch, and either uploads the part and continues or stops
with the failing index. -/
def runParts (partRes : Nat → HttpResponse) : Nat → Nat → LoopState →
    LoopState × Option Nat
  | 0, _, st => (st, none)
  | rem + 1, idx, st =>
    let r := partRes idx
    let st' : LoopState := ⟨st.parts, st.ranges ++ [partRange idx]⟩
    if goodPart r then
      runParts partRes rem (idx + 1) ⟨st'.parts ++ [idx + 1], st'.ranges⟩
    else (st', some idx)

/-- Wrapping of the stored object after a successful write: re-read and return
the stored body under the upstream status/headers, or a bare 404 when the
re-read finds nothing. -/
def finishImport (upstream : HttpResponse) (readBack : Option RBody) : HttpResponse :=
  match readBack with
  | none => ⟨404, hempty, none⟩
  | some b => ⟨upstream.status, upstream.headers, some b⟩

structure BlobImportResult where
  result : Except String HttpResponse
  events : List StoreEvent
  ranges : List String

def importBlob (name : String) (dg : Digest) (upstream : HttpResponse)
    (partRes : Nat → HttpResponse) (readBack : Option RBody) : BlobImportResult :=
  if resOk upstream = false ∨ upstream.body = none then ⟨.ok upstream, [], []⟩
  else
    let key := name ++ "/blobs/" ++ dg.digest
    let contentLength := contentLengthOf upstream
    if contentLength > partSize then
      let r := runParts partRes (numParts contentLength) 0 ⟨[], []⟩
      match r.2 with
      | some k =>
        ⟨.error ("failed to fetch blob for part " ++ toString k),
         [StoreEvent.createUpload key] ++ r.1.parts.map StoreEvent.uploadPart
           ++ [StoreEvent.abortUpload],
         r.1.ranges⟩
      | none =>
        ⟨.ok (finishImport upstream readBack),
         [StoreEvent.createUpload key] ++ r.1.parts.map StoreEvent.uploadPart
           ++ [StoreEvent.completeUpload r.1.parts],
         r.1.ranges⟩
    else
      ⟨.ok (finishImport upstream readBack), [StoreEvent.putObject key], []⟩

/-- An event trace leaves an object visible at the written key only if it
contains a completed single-shot put or a completed multipart upload
(an aborted multipart upload leaves nothing visible, per the store contract). -/
def leavesVisible (evs : List StoreEvent) : Bool :=
  evs.any fun e =>
    match e with
    | StoreEvent.putObject _ => true
    | StoreEvent.completeUpload _ => true
    | _ => false

/-! ## Import engine: `importAll` (registry.ts lines 212-261)

The upstream manifest graph is abstracted by `mfs`, mapping a digest string to
the parsed manifest JSON when `importManifest` succeeds for it (`none` models a
failed fetch).  Field accesses that would crash in JS (iterating a missing
`manifests`, reading a missing `config`) become errors, matching the thrown
`TypeError`.  The store is abstracted to the set of blob keys present
(`ImportState.blobs`); blob imports are recorded as events, at the granularity
the claims are about. -/

structure Descriptor where
  mediaType : String
  digest : String
  size : Nat
deriving DecidableEq, Repr

structure ManifestContent where
  mediaType : Option String
  manifests : Option (List Descriptor)
  config : Option Descriptor
  layers : Option (List Descriptor)
deriving DecidableEq, Repr

inductive ImportEvent where
  | manifestStored (digest : String)
  | blobImported (digest : String)
  | blobSkipped (digest : String)
deriving DecidableEq, Repr

structure ImportState where
  blobs : List String
  events : List ImportEvent
deriving DecidableEq, Repr

def indexMediaTypes : List String :=
  ["application/vnd.docker.distribution.manifest.list.v2+json",
   "application/vnd.oci.image.index.v1+json"]

def imageMediaTypes : List String :=
  ["application/vnd.docker.distribution.manifest.v2+json",
   "application/vnd.oci.image.manifest.v1+json"]

/-- One blob step of the single-image case: `storage.head` existence check,
skip when the key already exists, otherwise import (registry.ts lines 237-252). -/
def importBlobStep (name : String) (dg : Digest) (st : ImportState) : ImportState :=
  let key := name ++ "/blobs/" ++ dg.digest
  if key ∈ st.blobs then ⟨st.blobs, st.events ++ [ImportEvent.blobSkipped dg.digest]⟩
  else ⟨st.blobs ++ [key], st.events ++ [ImportEvent.blobImported dg.digest]⟩

/-- The `for (const layer of content.layers)` loop. -/
def importLayers (name : String) : List Descriptor → ImportState →
    Except String ImportState
  | [], st => .ok st
  | layer :: rest, st =>
    match parseDigest layer.digest with
    | none => .error ("invalid layer digest: " ++ layer.digest)
    | some dg => importLayers name rest (importBlobStep name dg st)

/-- The `for (const descriptor of content.manifests)` loop of the index case,
parameterized by the recursive call. -/
def forEachManifest (f : Digest → ImportState → Except String ImportState) :
    List Descriptor → ImportState → Except String ImportState
  | [], st => .ok st
  | d :: rest, st =>
    match parseDigest d.digest with
    | none => .error ("invalid manifest digest: " ++ d.digest)
    | some dg =>
      match f dg st with
      | .error e => .error e
      | .ok st' => forEachManifest f rest st'

/-- One level of `importAll`: fetch+store the manifest, then dispatch on its
`mediaType`; `recurse` is the recursive call used in the index case. -/
def importStep (recurse : Digest → ImportState → Except String ImportState)
    (mfs : String → Option ManifestContent) (name : String)
    (dg : Digest) (st : ImportState) : Except String ImportState :=
  match mfs dg.digest with
  | none => .error "failed to fetch manifest"
  | some content =>
    let st : ImportState := ⟨st.blobs, st.events ++ [ImportEvent.manifestStored dg.digest]⟩
    match content.mediaType with
    | none => .error "missing mediaType"
    | some mt =>
      if mt = "" then .error "missing mediaType"   -- "" is falsy in JS
      else if mt ∈ indexMediaTypes then
        match content.manifests with
        | none => .error "TypeError: content.manifests is not iterable"
        | some ds => forEachManifest recurse ds st
      else if mt ∈ imageMediaTypes then
        match content.config with
        | none => .error "TypeError: cannot read digest of undefined config"
        | some cfg =>
          match parseDigest cfg.digest with
          | none => .error ("invalid config digest: " ++ cfg.digest)
          | some cdg =>
            let st := importBlobStep name cdg st
            match content.layers with
            | none => .error "TypeError: content.layers is not iterable"
            | some ls => importLayers name ls st
      else .error "unknown content"

/-- `importAll`, with fuel bounding the recursion depth (the source recurses
without bound on untrusted upstream content; every claim is about one level of
dispatch, stated at fuel `fuel + 1`). -/
def importAll (mfs : String → Option ManifestContent) (name : String) :
    Nat → Digest → ImportState → Except String ImportState
  | 0, _, _ => .error "recursion limit"
  | fuel + 1, dg, st =>
    importStep (fun d s => importAll mfs name fuel d s) mfs name dg st

/-- Spec-side description of the single-image blob walk: process the config
descriptor then each layer descriptor in order, skipping any blob whose key
already exists (existence check only), failing on an invalid digest. -/
def specImageBlobWalk (name : String) : List Descriptor → ImportState →
    Option ImportState
  | [], st => some st
  | d :: rest, st =>
    match parseDigest d.digest with
    | none => none
    | some dg =>
      let key := name ++ "/blobs/" ++ dg.digest
      if key ∈ st.blobs then
        specImageBlobWalk name rest ⟨st.blobs, st.events ++ [ImportEvent.blobSkipped dg.digest]⟩
      else
        specImageBlobWalk name rest ⟨st.blobs ++ [key], st.events ++ [ImportEvent.blobImported dg.digest]⟩

/-! ## HTTP response adapter (`getObject`, registry.ts lines 292-328)

The two possible store operations are abstracted by their results : the
`storage.head` result for the HEAD branch and the conditional/range
`storage.get` result otherwise.  An `R2Object` without a body models the
"not modified" result of a failed conditional; `range` carries the offset and
length only when the store honored a byte range. -/

structure R2Range where
  offset : Option Nat
  length : Option Nat
deriving DecidableEq, Repr

structure R2Object where
  size : Nat
  httpEtag : String
  contentType : Option String
  contentEncoding : Option String
  range : Option R2Range
  body : Option RBody
deriving DecidableEq, Repr

/-- `obj.writeHttpMetadata(headers)`: copy stored content-type /
content-encoding metadata into the headers. -/
def writeHttpMetadata (hs : HeaderMap) (o : R2Object) : HeaderMap :=
  let hs1 := match o.contentType with
    | some v => hset hs "content-type" v
    | none => hs
  match o.contentEncoding with
  | some v => hset hs1 "content-encoding" v
  | none => hs1

/-- `bytes <offset>-<offset+length-1>/<total>` (arithmetic as JS numbers). -/
def contentRangeValue (off len total : Nat) : String :=
  "bytes " ++ toString off ++ "-" ++ toString ((off : Int) + (len : Int) - 1)
    ++ "/" ++ toString total

/-- Lines 310-322: content-range and content-length when the request had a
`Range` header and the store honored it, full content-length otherwise. -/
def rangeHeaders (reqRange : Option String) (o : R2Object) (h : HeaderMap) : HeaderMap :=
  match reqRange, o.range with
  | some _, some r =>
    match r.offset, r.length with
    | some off, some len =>
      hset (hset h "content-range" (contentRangeValue off len o.size))
        "content-length" (toString len)
    | _, _ => hset h "content-length" (toString o.size)
  | _, _ => hset h "content-length" (toString o.size)

/-- Line 325: 206 when a body is present and a `Range` header was requested,
200 for a full body, 304 when the store signaled not-modified (no body). -/
def getStatus (reqRange : Option String) (o : R2Object) : Nat :=
  if o.body.isSome then (if reqRange.isSome then 206 else 200) else 304

/-- `getObject`: `reqRange` is the request's `Range` header; `headers0` is the
header map prepared by the route handler. -/
def getObject (method : String) (reqRange : Option String)
    (headResult getResult : Option R2Object) (headers0 : HeaderMap) :
    Option HttpResponse :=
  if method = "HEAD" then
    match headResult with
    | none => none
    | some o =>
      let h := writeHttpMetadata headers0 o
      let h := hset h "accept-ranges" "bytes"
      let h := hset h "etag" o.httpEtag
      let h := hset h "content-length" (toString o.size)
      some (emptyResponse h)
  else
    match getResult with
    | none => none
    | some o =>
      let h := writeHttpMetadata headers0 o
      let h := hset h "etag" o.httpEtag
      let h := hset h "accept-ranges" "bytes"
      let h := rangeHeaders reqRange o h
      some ⟨getStatus reqRange o, h, o.body⟩

/-! ## Helper lemmas -/

theorem hget_hset_same (hs : HeaderMap) (k v : String) :
    hget (hset hs k v) k = some v := by
  simp [hget, hset]

theorem hget_hset_of_ne (hs : HeaderMap) (k v k' : String)
    (h : normKey k' ≠ normKey k) : hget (hset hs k v) k' = hget hs k' := by
  simp [hget, hset, h]

theorem hget_writeHttpMetadata (hs : HeaderMap) (o : R2Object) (k : String)
    (h1 : normKey k ≠ normKey "content-type")
    (h2 : normKey k ≠ normKey "content-encoding") :
    hget (writeHttpMetadata hs o) k = hget hs k := by
  unfold writeHttpMetadata
  cases o.contentType <;> cases o.contentEncoding <;>
    simp [hget_hset_of_ne, h1, h2]

theorem string_data_append (a b : String) : (a ++ b).data = a.data ++ b.data := by
  cases a; cases b; rfl

theorem string_mk_data (s : String) : String.mk s.data = s := by
  cases s; rfl

theorem splitAtColon_append (xs ys : List Char) (h : ':' ∉ xs) :
    splitAtColon (xs ++ ':' :: ys) = some (xs, ys) := by
  induction xs with
  | nil => simp [splitAtColon]
  | cons c cs ih =>
    have hc : ¬(c = ':') := fun hh => h (hh ▸ List.mem_cons_self c cs)
    have ih' := ih (fun hm => h (List.mem_cons_of_mem _ hm))
    simp [splitAtColon, hc, ih']

theorem splitAtColon_eq (cs : List Char) :
    ∀ a h, splitAtColon cs = some (a, h) → cs = a ++ ':' :: h ∧ ':' ∉ a := by
  induction cs with
  | nil => intro a h hsplit; simp [splitAtColon] at hsplit
  | cons c rest ih =>
    intro a h hsplit
    by_cases hc : c = ':'
    · subst hc
      simp [splitAtColon] at hsplit
      obtain ⟨ha, hh⟩ := hsplit
      subst ha; subst hh; simp
    · have hstep : splitAtColon (c :: rest)
          = (splitAtColon rest).map (fun p => (c :: p.1, p.2)) := by
        simp [splitAtColon, hc]
      rw [hstep] at hsplit
      cases hrest : splitAtColon rest with
      | none => rw [hrest] at hsplit; simp at hsplit
      | some p =>
        obtain ⟨a0, h0⟩ := p
        rw [hrest] at hsplit
        simp only [Option.map_some'] at hsplit
        have hpair : (c :: a0, h0) = (a, h) := Option.some.inj hsplit
        have ha : c :: a0 = a := congrArg Prod.fst hpair
        have hh : h0 = h := congrArg Prod.snd hpair
        subst ha; subst hh
        obtain ⟨hrest2, hnot⟩ := ih a0 h0 hrest
        constructor
        · rw [hrest2]; simp
        · intro hmem
          rcases List.mem_cons.mp hmem with h1 | h1
          · exact hc h1.symm
          · exact hnot h1

theorem recognizedAlg_props (a : String) (ha : recognizedAlg a) :
    algMatch a.data = true ∧ ':' ∉ a.data := by
  rcases ha with h | h | h <;> subst h <;> exact ⟨by decide, by decide⟩

theorem validHash_hashMatch (h : String) (hh : validHash h) :
    hashMatch h.data = true := by
  obtain ⟨hne, hall⟩ := hh
  have hne' : h.data ≠ [] := by
    intro hnil
    apply hne
    have := string_mk_data h
    rw [hnil] at this
    exact this.symm
  simp [hashMatch, hall, List.isEmpty_iff, hne']

/-- Positive direction of the `parseDigest` characterization. -/
theorem parseDigest_valid (a h : String) (ha : recognizedAlg a) (hh : validHash h) :
    parseDigest (a ++ ":" ++ h) = some ⟨a, h, a ++ ":" ++ h⟩ := by
  obtain ⟨halg, hcolon⟩ := recognizedAlg_props a ha
  have hdata : (a ++ ":" ++ h).data = a.data ++ ':' :: h.data := by
    rw [string_data_append, string_data_append]
    simp [List.append_assoc]
  have hsplit : splitAtColon (a ++ ":" ++ h).data = some (a.data, h.data) := by
    rw [hdata]; exact splitAtColon_append _ _ hcolon
  have hmatch : digestMatch (a ++ ":" ++ h) = true := by
    unfold digestMatch
    rw [hsplit]
    simp [halg, validHash_hashMatch h hh]
  have halg3 : a = "sha256" ∨ a = "sha384" ∨ a = "sha512" := ha
  have hne : ¬(h = "") := hh.1
  unfold parseDigest
  rw [hmatch, hsplit]
  simp only [string_mk_data]
  simp [halg3, hne]

/-- Any string `parseDigest` accepts decomposes as a recognized algorithm, a
colon and a valid hash. -/
theorem parseDigest_some_decomp (s : String) (d : Digest)
    (hp : parseDigest s = some d) :
    ∃ a h, recognizedAlg a ∧ validHash h ∧ s = a ++ ":" ++ h := by
  unfold parseDigest at hp
  by_cases hm : digestMatch s = true
  · rw [if_pos hm] at hp
    cases hsplit : splitAtColon s.data with
    | none => rw [hsplit] at hp; simp at hp
    | some p =>
      obtain ⟨a0, h0⟩ := p
      rw [hsplit] at hp
      simp only at hp
      by_cases halg : String.mk a0 = "sha256" ∨ String.mk a0 = "sha384" ∨ String.mk a0 = "sha512"
      · rw [if_pos halg] at hp
        by_cases hh0 : String.mk h0 = ""
        · rw [if_pos hh0] at hp; simp at hp
        · rw [if_neg hh0] at hp
          have hmm : (algMatch a0 && hashMatch h0) = true := by
            unfold digestMatch at hm
            rw [hsplit] at hm
            exact hm
          have hhash : hashMatch h0 = true := by
            simp only [Bool.and_eq_true] at hmm
            exact hmm.2
          have hall : h0.all isHashChar = true := by
            unfold hashMatch at hhash
            simp only [Bool.and_eq_true] at hhash
            exact hhash.2
          refine ⟨String.mk a0, String.mk h0, halg, ⟨hh0, hall⟩, ?_⟩
          obtain ⟨hdec, _⟩ := splitAtColon_eq s.data a0 h0 hsplit
          have hs1 : String.mk s.data = String.mk (a0 ++ ':' :: h0) := by rw [hdec]
          rw [string_mk_data] at hs1
          rw [hs1]
          have hs2 : (String.mk a0 ++ ":" ++ String.mk h0).data = a0 ++ ':' :: h0 := by
            rw [string_data_append, string_data_append]
            simp [List.append_assoc]
          rw [← hs2, string_mk_data]
      · rw [if_neg halg] at hp; simp at hp
  · rw [if_neg hm] at hp; simp at hp

/-- C7.  For every string of the form `algorithm:hash` with a recognized
algorithm and a nonempty hash over the hash alphabet, `parseDigest` returns
the structured digest whose `digest` field is the input; every other string
is rejected with null. -/
theorem parseDigest_characterization :
    (∀ a h, recognizedAlg a → validHash h →
        parseDigest (a ++ ":" ++ h) = some ⟨a, h, a ++ ":" ++ h⟩)
    ∧ (∀ s, (∀ a h, recognizedAlg a → validHash h → s ≠ a ++ ":" ++ h) →
        parseDigest s = none) := by
  constructor
  · exact parseDigest_valid
  · intro s hno
    cases hp : parseDigest s with
    | none => rfl
    | some d =>
      obtain ⟨a, h, ha, hh, hs⟩ := parseDigest_some_decomp s d hp
      exact absurd hs (hno a h ha hh)

/-- Witness for C7 at a concrete recognized digest string. -/
theorem parseDigest_characterization_witness :
    parseDigest ("sha256" ++ ":" ++ "abc") = some ⟨"sha256", "abc", "sha256" ++ ":" ++ "abc"⟩ :=
  parseDigest_characterization.1 "sha256" "abc" (Or.inl rfl) ⟨by decide, by decide⟩

/-- C1 counterexample.  On a cache miss with a successful upstream fetch whose
`Docker-Content-Digest` header is present but not a parsable digest
(`md5:deadbeef` matches the general digest pattern but has an unrecognized
algorithm), the function returns null AND nevertheless persists the raw header
value as the tag mapping, contradicting the claim that no mapping is written
for an unparsable header. -/
theorem resolveTagToDigest_persists_unparsable_header :
    (resolveTagToDigest (fun _ => none)
        ⟨200, hset hempty "Docker-Content-Digest" "md5:deadbeef", some (RBody.content "m")⟩
        "repo" "latest").result = none
    ∧ sget (resolveTagToDigest (fun _ => none)
        ⟨200, hset hempty "Docker-Content-Digest" "md5:deadbeef", some (RBody.content "m")⟩
        "repo" "latest").store "repo/tags/latest" = some "md5:deadbeef" := by
  constructor
  · decide
  · decide

/-- C1 as amended.  On a cache miss with a successful upstream fetch: the
function returns null whenever the header is absent, empty, or unparsable; but
the tag mapping is persisted whenever the header is present and non-empty,
even when it does not parse (the put happens before the parse), and the parsed
digest is returned when it does parse. -/
theorem resolveTagToDigest_upstream_header (st : Store) (u : HttpResponse)
    (name tag : String)
    (hmiss : sget st (name ++ "/tags/" ++ tag) = none)
    (hok : resOk u = true) :
    (hget u.headers "Docker-Content-Digest" = none →
        (resolveTagToDigest st u name tag).result = none
        ∧ (resolveTagToDigest st u name tag).store = st)
    ∧ (hget u.headers "Docker-Content-Digest" = some "" →
        (resolveTagToDigest st u name tag).result = none
        ∧ (resolveTagToDigest st u name tag).store = st)
    ∧ (∀ d, hget u.headers "Docker-Content-Digest" = some d → d ≠ "" →
        (resolveTagToDigest st u name tag).result = parseDigest d
        ∧ sget (resolveTagToDigest st u name tag).store (name ++ "/tags/" ++ tag)
            = some d) := by
  have hok' : ¬(resOk u = false) := by simp [hok]
  have hmiss' : st (name ++ "/tags/" ++ tag) = none := hmiss
  refine ⟨?_, ?_, ?_⟩
  · intro hh
    simp [resolveTagToDigest, hmiss', hok', hh, sget]
  · intro hh
    simp [resolveTagToDigest, hmiss', hok', hh, sget]
  · intro d hh hne
    simp [resolveTagToDigest, hmiss', hok', hh, hne, sget, sput]

/-- Witness for C1's amended theorem: a parsable header is persisted and
returned parsed. -/
theorem resolveTagToDigest_upstream_header_witness :
    (resolveTagToDigest (fun _ => none)
        ⟨200, hset hempty "Docker-Content-Digest" "sha256:abc", some (RBody.content "m")⟩
        "repo" "latest").result = parseDigest "sha256:abc"
    ∧ sget (resolveTagToDigest (fun _ => none)
        ⟨200, hset hempty "Docker-Content-Digest" "sha256:abc", some (RBody.content "m")⟩
        "repo" "latest").store "repo/tags/latest" = some "sha256:abc" :=
  (resolveTagToDigest_upstream_header (fun _ => none)
      ⟨200, hset hempty "Docker-Content-Digest" "sha256:abc", some (RBody.content "m")⟩
      "repo" "latest" rfl rfl).2.2 "sha256:abc" (by decide) (by decide)

/-- C9.  When the store holds a tag mapping whose text does not parse as a
digest, `resolveTagToDigest` returns null, performs no upstream fetch, and
leaves the store exactly as it was, so the stale invalid mapping persists. -/
theorem resolveTagToDigest_stale_invalid_mapping (st : Store) (u : HttpResponse)
    (name tag text : String)
    (hhit : sget st (name ++ "/tags/" ++ tag) = some text)
    (hbad : parseDigest text = none) :
    (resolveTagToDigest st u name tag).result = none
    ∧ (resolveTagToDigest st u name tag).fetched = false
    ∧ (resolveTagToDigest st u name tag).store = st := by
  simp [resolveTagToDigest, hhit, hbad]

/-- Witness for C9 with a concrete unparsable stored text. -/
theorem resolveTagToDigest_stale_invalid_mapping_witness :
    (resolveTagToDigest (fun k => if k = "repo/tags/latest" then some "garbage!" else none)
        ⟨200, hempty, none⟩ "repo" "latest").result = none
    ∧ (resolveTagToDigest (fun k => if k = "repo/tags/latest" then some "garbage!" else none)
        ⟨200, hempty, none⟩ "repo" "latest").fetched = false
    ∧ (resolveTagToDigest (fun k => if k = "repo/tags/latest" then some "garbage!" else none)
        ⟨200, hempty, none⟩ "repo" "latest").store
        = (fun k => if k = "repo/tags/latest" then some "garbage!" else none) :=
  resolveTagToDigest_stale_invalid_mapping _ _ "repo" "latest" "garbage!"
    (by decide) (by decide)

/-- C3.  For a HEAD request, `pullThroughRegistry` first attempts the store
read (answering from it on a hit with no populate call); on a miss it invokes
populate exactly once, returns a non-2xx populate response verbatim, and
otherwise re-reads the store exactly once, answering 404 with error code
`BLOB_UNKNOWN` when the re-read is still absent. -/
theorem pullThroughRegistry_head_semantics (read1 read2 : Option HttpResponse)
    (populate : HttpResponse) :
    (∀ o, read1 = some o →
        (pullThroughRegistry "HEAD" read1 read2 populate).res = o
        ∧ (pullThroughRegistry "HEAD" read1 read2 populate).reads = 1
        ∧ (pullThroughRegistry "HEAD" read1 read2 populate).populates = 0)
    ∧ (read1 = none →
        (pullThroughRegistry "HEAD" read1 read2 populate).populates = 1
        ∧ (resOk populate = false →
            (pullThroughRegistry "HEAD" read1 read2 populate).res = populate
            ∧ (pullThroughRegistry "HEAD" read1 read2 populate).reads = 1)
        ∧ (resOk populate = true →
            (pullThroughRegistry "HEAD" read1 read2 populate).reads = 2
            ∧ (∀ o, read2 = some o →
                (pullThroughRegistry "HEAD" read1 read2 populate).res = o)
            ∧ (read2 = none →
                (pullThroughRegistry "HEAD" read1 read2 populate).res.status = 404
                ∧ (pullThroughRegistry "HEAD" read1 read2 populate).res.body
                    = some (RBody.errors ["BLOB_UNKNOWN"])))) := by
  constructor
  · intro o h1
    simp [pullThroughRegistry, h1]
  · intro h1
    subst h1
    refine ⟨?_, ?_, ?_⟩
    · cases hpo : resOk populate <;> cases read2 <;>
        simp [pullThroughRegistry, hpo]
    · intro hpo
      cases read2 <;> simp [pullThroughRegistry, hpo]
    · intro hpo
      have hpo' : ¬(resOk populate = false) := by simp [hpo]
      refine ⟨?_, ?_, ?_⟩
      · cases read2 <;> simp [pullThroughRegistry, hpo']
      · intro o h2
        simp [pullThroughRegistry, hpo', h2]
      · intro h2
        subst h2
        simp [pullThroughRegistry, hpo', json, response]

/-- Witness for C3: a miss followed by a failed populate returns the populate
response verbatim after exactly one populate call. -/
theorem pullThroughRegistry_head_semantics_witness :
    (pullThroughRegistry "HEAD" none none ⟨502, hempty, none⟩).populates = 1
    ∧ (pullThroughRegistry "HEAD" none none ⟨502, hempty, none⟩).res = ⟨502, hempty, none⟩
    ∧ (pullThroughRegistry "HEAD" none none ⟨502, hempty, none⟩).reads = 1 := by
  have h := pullThroughRegistry_head_semantics none none ⟨502, hempty, none⟩
  have h2 := (h.2 rfl).2.1 (by decide)
  exact ⟨(h.2 rfl).1, h2.1, h2.2⟩

/-- C6 counterexample.  Three responses produced by the system carry no
`Docker-Distribution-API-Version` header at all: an upstream failure passed
through verbatim by `importManifest`, the bare 404 built when the re-read
after storing finds nothing, and the stored-copy response wrapped in the
upstream's own headers (here headerless). -/
theorem importManifest_passthrough_missing_api_version :
    hget (importManifest ⟨502, hempty, none⟩ none).res.headers
        "Docker-Distribution-API-Version" = none
    ∧ hget (importManifest ⟨200, hempty, some (RBody.content "m")⟩ none).res.headers
        "Docker-Distribution-API-Version" = none
    ∧ hget (importManifest ⟨200, hempty, some (RBody.content "m")⟩
        (some (RBody.content "m"))).res.headers
        "Docker-Distribution-API-Version" = none := by
  refine ⟨?_, ?_, ?_⟩ <;> decide

/-- C6 as amended.  Every response constructed through the `response` helper
(hence also through `json` and `emptyResponse`) carries
`Docker-Distribution-API-Version: registry/2.0`; but a response passed through
from the upstream registry (`importManifest` on a failed or bodyless upstream
fetch) is returned verbatim and carries the header only if the upstream
response did. -/
theorem response_helpers_set_api_version :
    (∀ b s hs, hget (response b s hs).headers "Docker-Distribution-API-Version"
        = some "registry/2.0")
    ∧ (∀ codes s, hget (json codes s).headers "Docker-Distribution-API-Version"
        = some "registry/2.0")
    ∧ (∀ hs, hget (emptyResponse hs).headers "Docker-Distribution-API-Version"
        = some "registry/2.0")
    ∧ (∀ u rb, resOk u = false ∨ u.body = none → (importManifest u rb).res = u) := by
  refine ⟨?_, ?_, ?_, ?_⟩
  · intro b s hs
    simp [response, hget_hset_same]
  · intro codes s
    simp [json, response, hget_hset_same]
  · intro hs
    simp [emptyResponse, response, hget_hset_same]
  · intro u rb h
    simp [importManifest, h]

/-- Witness for C6's amended theorem at a concrete constructed response and a
concrete upstream pass-through. -/
theorem response_helpers_set_api_version_witness :
    hget (response none 200 hempty).headers "Docker-Distribution-API-Version"
        = some "registry/2.0"
    ∧ (importManifest ⟨502, hempty, none⟩ none).res = ⟨502, hempty, none⟩ :=
  ⟨response_helpers_set_api_version.1 none 200 hempty,
   response_helpers_set_api_version.2.2.2 ⟨502, hempty, none⟩ none (Or.inl (by decide))⟩

/-- C5.  For non-HEAD reads of a present object: 206 when a Range header was
requested and a body is present, 200 for a full body without a range request,
304 with no body on a conditional not-modified; when the request had a Range
header and the store honored it, `content-range` has the form
`bytes offset-(offset+length-1)/total` and `content-length` is the honored
length, otherwise `content-length` is the full object size. -/
theorem getObject_read_semantics (method : String) (reqRange : Option String)
    (hr : Option R2Object) (o : R2Object) (headers0 : HeaderMap)
    (hm : method ≠ "HEAD") :
    ∃ resp, getObject method reqRange hr (some o) headers0 = some resp
      ∧ resp.body = o.body
      ∧ (o.body.isSome = true → reqRange.isSome = true → resp.status = 206)
      ∧ (o.body.isSome = true → reqRange = none → resp.status = 200)
      ∧ (o.body = none → resp.status = 304 ∧ resp.body = none)
      ∧ (∀ s r off len, reqRange = some s → o.range = some r →
          r.offset = some off → r.length = some len →
          hget resp.headers "content-range"
              = some (contentRangeValue off len o.size)
          ∧ hget resp.headers "content-length" = some (toString len))
      ∧ ((reqRange = none ∨ o.range = none
            ∨ (∃ r, o.range = some r ∧ (r.offset = none ∨ r.length = none))) →
          hget resp.headers "content-length" = some (toString o.size)) := by
  refine ⟨⟨getStatus reqRange o,
      rangeHeaders reqRange o
        (hset (hset (writeHttpMetadata headers0 o) "etag" o.httpEtag) "accept-ranges" "bytes"),
      o.body⟩, by simp [getObject, hm], rfl, ?_, ?_, ?_, ?_, ?_⟩
  · intro hb hr2
    simp [getStatus, hb, hr2]
  · intro hb hr2
    simp [getStatus, hb, hr2]
  · intro hb
    exact ⟨by simp [getStatus, hb], hb⟩
  · intro s r off len h1 h2 h3 h4
    subst h1
    constructor
    · rw [show rangeHeaders (some s) o
          (hset (hset (writeHttpMetadata headers0 o) "etag" o.httpEtag) "accept-ranges" "bytes")
          = hset (hset (hset (hset (writeHttpMetadata headers0 o) "etag" o.httpEtag)
              "accept-ranges" "bytes") "content-range" (contentRangeValue off len o.size))
              "content-length" (toString len) from by
            simp [rangeHeaders, h2, h3, h4]]
      rw [hget_hset_of_ne _ _ _ _ (by decide), hget_hset_same]
    · rw [show rangeHeaders (some s) o
          (hset (hset (writeHttpMetadata headers0 o) "etag" o.httpEtag) "accept-ranges" "bytes")
          = hset (hset (hset (hset (writeHttpMetadata headers0 o) "etag" o.httpEtag)
              "accept-ranges" "bytes") "content-range" (contentRangeValue off len o.size))
              "content-length" (toString len) from by
            simp [rangeHeaders, h2, h3, h4]]
      rw [hget_hset_same]
  · intro hcase
    rcases hcase with h1 | h1 | ⟨r, h1, h2⟩
    · subst h1
      simp [rangeHeaders, hget_hset_same]
    · simp [rangeHeaders, h1]
      cases reqRange <;> simp [hget_hset_same]
    · cases reqRange with
      | none => simp [rangeHeaders, hget_hset_same]
      | some s =>
        rcases h2 with h2 | h2 <;>
          rcases hoff : r.offset with _ | off <;>
            rcases hlen : r.length with _ | len <;>
              simp_all [rangeHeaders, hget_hset_same]

/-- Witness for C5: an honored range on a concrete object. -/
theorem getObject_read_semantics_witness :
    ∃ resp, getObject "GET" (some "bytes=5-9")
        none (some ⟨20, "e1", none, none, some ⟨some 5, some 5⟩, some (RBody.content "x")⟩)
        hempty = some resp
      ∧ resp.status = 206
      ∧ hget resp.headers "content-range" = some "bytes 5-9/20"
      ∧ hget resp.headers "content-length" = some "5" := by
  obtain ⟨resp, hres, _, h206, _, _, hrange, _⟩ :=
    getObject_read_semantics "GET" (some "bytes=5-9") none
      ⟨20, "e1", none, none, some ⟨some 5, some 5⟩, some (RBody.content "x")⟩
      hempty (by decide)
  obtain ⟨hcr, hcl⟩ := hrange "bytes=5-9" ⟨some 5, some 5⟩ 5 5 rfl rfl rfl rfl
  refine ⟨resp, hres, h206 (by decide) (by decide), ?_, ?_⟩
  · rw [hcr]; decide
  · rw [hcl]; decide

/-- C10.  A non-HEAD read with a Range header against a present object whose
store result carries no range metadata still answers 206, but with no
`content-range` header and `content-length` equal to the full object size. -/
theorem getObject_range_not_honored (method : String) (rv : String)
    (hr : Option R2Object) (o : R2Object) (headers0 : HeaderMap)
    (hm : method ≠ "HEAD") (hbody : o.body.isSome = true) (hnr : o.range = none)
    (hcr0 : hget headers0 "content-range" = none) :
    ∃ resp, getObject method (some rv) hr (some o) headers0 = some resp
      ∧ resp.status = 206
      ∧ hget resp.headers "content-range" = none
      ∧ hget resp.headers "content-length" = some (toString o.size) := by
  refine ⟨⟨getStatus (some rv) o,
      rangeHeaders (some rv) o
        (hset (hset (writeHttpMetadata headers0 o) "etag" o.httpEtag) "accept-ranges" "bytes"),
      o.body⟩, by simp [getObject, hm], by simp [getStatus, hbody], ?_, ?_⟩
  · rw [show rangeHeaders (some rv) o
        (hset (hset (writeHttpMetadata headers0 o) "etag" o.httpEtag) "accept-ranges" "bytes")
        = hset (hset (hset (writeHttpMetadata headers0 o) "etag" o.httpEtag)
            "accept-ranges" "bytes") "content-length" (toString o.size) from by
          simp [rangeHeaders, hnr]]
    rw [hget_hset_of_ne _ _ _ _ (by decide), hget_hset_of_ne _ _ _ _ (by decide),
      hget_hset_of_ne _ _ _ _ (by decide),
      hget_writeHttpMetadata _ _ _ (by decide) (by decide)]
    exact hcr0
  · rw [show rangeHeaders (some rv) o
        (hset (hset (writeHttpMetadata headers0 o) "etag" o.httpEtag) "accept-ranges" "bytes")
        = hset (hset (hset (writeHttpMetadata headers0 o) "etag" o.httpEtag)
            "accept-ranges" "bytes") "content-length" (toString o.size) from by
          simp [rangeHeaders, hnr]]
    rw [hget_hset_same]

/-- Witness for C10 on a concrete un-honored range read. -/
theorem getObject_range_not_honored_witness :
    ∃ resp, getObject "GET" (some "bytes=0-4") none
        (some ⟨20, "e1", none, none, none, some (RBody.content "x")⟩) hempty = some resp
      ∧ resp.status = 206
      ∧ hget resp.headers "content-range" = none
      ∧ hget resp.headers "content-length" = some (toString (20 : Nat)) :=
  getObject_range_not_honored "GET" "bytes=0-4" none
    ⟨20, "e1", none, none, none, some (RBody.content "x")⟩ hempty
    (by decide) (by decide) rfl rfl

/-! ## The multipart part loop -/

/-- When every remaining part fetch succeeds, the loop uploads all `rem` parts
with ascending tokens and issues the ascending ranged fetches. -/
theorem runParts_all_good (partRes : Nat → HttpResponse) :
    ∀ (rem idx : Nat) (st : LoopState),
    (∀ j, j < rem → goodPart (partRes (idx + j)) = true) →
    runParts partRes rem idx st =
      (⟨st.parts ++ List.range' (idx + 1) rem,
        st.ranges ++ (List.range' idx rem).map partRange⟩, none) := by
  intro rem
  induction rem with
  | zero => intro idx st h; simp [runParts]
  | succ n ih =>
    intro idx st h
    have h0 : goodPart (partRes idx) = true := by
      have := h 0 (Nat.succ_pos n)
      simpa using this
    have hshift : ∀ j, j < n → goodPart (partRes (idx + 1 + j)) = true := by
      intro j hj
      have := h (j + 1) (by omega)
      have harith : idx + (j + 1) = idx + 1 + j := by omega
      rwa [harith] at this
    rw [runParts, if_pos h0,
      ih (idx + 1) ⟨st.parts ++ [idx + 1], st.ranges ++ [partRange idx]⟩ hshift]
    simp [List.range'_succ, List.append_assoc]

/-- When part `k` is the first failing fetch, the loop uploads parts
`1..k`, issues the first `k+1` ranged fetches, and stops at `k`. -/
theorem runParts_first_bad (partRes : Nat → HttpResponse) :
    ∀ (k rem idx : Nat) (st : LoopState),
    k < rem →
    (∀ j, j < k → goodPart (partRes (idx + j)) = true) →
    goodPart (partRes (idx + k)) = false →
    runParts partRes rem idx st =
      (⟨st.parts ++ List.range' (idx + 1) k,
        st.ranges ++ (List.range' idx (k + 1)).map partRange⟩, some (idx + k)) := by
  intro k
  induction k with
  | zero =>
    intro rem idx st hk hgood hbad
    obtain ⟨n, rfl⟩ : ∃ n, rem = n + 1 := ⟨rem - 1, by omega⟩
    simp only [Nat.add_zero] at hbad
    rw [runParts, if_neg (by simp [hbad])]
    simp [List.range'_one]
  | succ m ih =>
    intro rem idx st hk hgood hbad
    obtain ⟨n, rfl⟩ : ∃ n, rem = n + 1 := ⟨rem - 1, by omega⟩
    have h0 : goodPart (partRes idx) = true := by
      have := hgood 0 (Nat.succ_pos m)
      simpa using this
    have hshift : ∀ j, j < m → goodPart (partRes (idx + 1 + j)) = true := by
      intro j hj
      have := hgood (j + 1) (by omega)
      have harith : idx + (j + 1) = idx + 1 + j := by omega
      rwa [harith] at this
    have hbad' : goodPart (partRes (idx + 1 + m)) = false := by
      have harith : idx + (m + 1) = idx + 1 + m := by omega
      rwa [harith] at hbad
    rw [runParts, if_pos h0,
      ih n (idx + 1) ⟨st.parts ++ [idx + 1], st.ranges ++ [partRange idx]⟩
        (by omega) hshift hbad']
    have harith : idx + 1 + m = idx + (m + 1) := by omega
    simp [harith, List.range'_succ, List.append_assoc]

theorem leavesVisible_append (a b : List StoreEvent) :
    leavesVisible (a ++ b) = (leavesVisible a || leavesVisible b) := by
  simp [leavesVisible]

theorem leavesVisible_map_uploadPart (l : List Nat) :
    leavesVisible (l.map StoreEvent.uploadPart) = false := by
  induction l with
  | nil => rfl
  | cons x xs ih => simp [leavesVisible] at ih ⊢

/-- C2.  For an upstream blob response whose reported content length exceeds
the 250 MiB part size, the blob is ingested by a multipart upload of exactly
`numParts = ceil(contentLength/partSize)` parts fetched with the ascending
byte ranges `bytes=i*partSize-((i+1)*partSize-1)`; the upload is completed
(with the ordered token list) only when every part succeeds, and the first
failing part aborts the upload before the error propagates, with no
visibility-creating event at the blob key. -/
theorem importBlob_multipart_chunking (name : String) (dg : Digest)
    (u : HttpResponse) (partRes : Nat → HttpResponse) (readBack : Option RBody)
    (n : Nat)
    (hok : resOk u = true) (hbody : u.body ≠ none)
    (hbig : contentLengthOf u > partSize)
    (hn : n = numParts (contentLengthOf u)) :
    ((∀ i, i < n → goodPart (partRes i) = true) →
      (importBlob name dg u partRes readBack).ranges
          = (List.range n).map partRange
      ∧ (importBlob name dg u partRes readBack).events
          = [StoreEvent.createUpload (name ++ "/blobs/" ++ dg.digest)]
            ++ (List.range n).map (fun i => StoreEvent.uploadPart (i + 1))
            ++ [StoreEvent.completeUpload ((List.range n).map (fun i => i + 1))]
      ∧ (importBlob name dg u partRes readBack).result
          = Except.ok (finishImport u readBack))
    ∧ (∀ k, k < n → goodPart (partRes k) = false →
        (∀ j, j < k → goodPart (partRes j) = true) →
        (importBlob name dg u partRes readBack).ranges
            = (List.range (k + 1)).map partRange
        ∧ (importBlob name dg u partRes readBack).events
            = [StoreEvent.createUpload (name ++ "/blobs/" ++ dg.digest)]
              ++ (List.range k).map (fun i => StoreEvent.uploadPart (i + 1))
              ++ [StoreEvent.abortUpload]
        ∧ (importBlob name dg u partRes readBack).result
            = Except.error ("failed to fetch blob for part " ++ toString k)
        ∧ leavesVisible (importBlob name dg u partRes readBack).events = false) := by
  have hcond : ¬(resOk u = false ∨ u.body = none) := by
    simp [hok, hbody]
  have hadd : (fun i => 1 + i) = (fun i : Nat => i + 1) := funext fun i => Nat.add_comm 1 i
  constructor
  · intro hgood
    have hgood' : ∀ j, j < n → goodPart (partRes (0 + j)) = true := by
      intro j hj; simpa using hgood j hj
    have hloop := runParts_all_good partRes n 0 ⟨[], []⟩ hgood'
    simp only [Nat.zero_add] at hloop
    have himp : importBlob name dg u partRes readBack =
        ⟨Except.ok (finishImport u readBack),
         [StoreEvent.createUpload (name ++ "/blobs/" ++ dg.digest)]
           ++ (List.range' 1 n).map StoreEvent.uploadPart
           ++ [StoreEvent.completeUpload (List.range' 1 n)],
         (List.range' 0 n).map partRange⟩ := by
      rw [importBlob.eq_def, if_neg hcond, if_pos hbig, ← hn, hloop]
      rfl
    have hr0 : List.range' 0 n = List.range n := (List.range_eq_range' _).symm
    have hr1 : List.range' 1 n = (List.range n).map (fun i => i + 1) := by
      rw [List.range'_eq_map_range, hadd]
    refine ⟨?_, ?_, ?_⟩
    · rw [himp, hr0]
    · rw [himp, hr1]
      simp [List.map_map, Function.comp]
    · rw [himp]
  · intro k hk hbad hgood
    have hgood' : ∀ j, j < k → goodPart (partRes (0 + j)) = true := by
      intro j hj; simpa using hgood j hj
    have hbad' : goodPart (partRes (0 + k)) = false := by simpa using hbad
    have hloop := runParts_first_bad partRes k n 0 ⟨[], []⟩ hk hgood' hbad'
    simp only [Nat.zero_add] at hloop
    have himp : importBlob name dg u partRes readBack =
        ⟨Except.error ("failed to fetch blob for part " ++ toString k),
         [StoreEvent.createUpload (name ++ "/blobs/" ++ dg.digest)]
           ++ (List.range' 1 k).map StoreEvent.uploadPart ++ [StoreEvent.abortUpload],
         (List.range' 0 (k + 1)).map partRange⟩ := by
      rw [importBlob.eq_def, if_neg hcond, if_pos hbig, ← hn, hloop]
      rfl
    have hr0 : List.range' 0 (k + 1) = List.range (k + 1) := (List.range_eq_range' _).symm
    have hr1 : List.range' 1 k = (List.range k).map (fun i => i + 1) := by
      rw [List.range'_eq_map_range, hadd]
    refine ⟨?_, ?_, ?_, ?_⟩
    · rw [himp, hr0]
    · rw [himp, hr1]
      simp [List.map_map, Function.comp]
    · rw [himp]
    · rw [himp, leavesVisible_append, leavesVisible_append, leavesVisible_map_uploadPart]
      rfl

/-- Witness for C2: a two-part blob (content length 262144001) with all parts
succeeding is fetched with the two ascending ranges. -/
theorem importBlob_multipart_chunking_witness :
    (importBlob "r" ⟨"sha256", "aa", "sha256:aa"⟩
        ⟨200, hset hempty "content-length" "262144001", some (RBody.content "b")⟩
        (fun _ => ⟨200, hempty, some (RBody.content "x")⟩)
        (some (RBody.content "b"))).ranges
      = ["bytes=0-262143999", "bytes=262144000-524287999"] := by
  have h := (importBlob_multipart_chunking "r" ⟨"sha256", "aa", "sha256:aa"⟩
      ⟨200, hset hempty "content-length" "262144001", some (RBody.content "b")⟩
      (fun _ => ⟨200, hempty, some (RBody.content "x")⟩)
      (some (RBody.content "b")) 2
      (by decide) (by decide) (by decide) (by decide)).1 (fun i _ => by decide)
  rw [h.1]
  decide

/-- C8.  A successful upstream blob response whose content length is absent
(treated as 0) or at most the 250 MiB part size (262144000 bytes — the
comparison is strict) is written with a single-shot put: no multipart events
and no ranged part fetches. -/
theorem importBlob_single_shot (name : String) (dg : Digest)
    (u : HttpResponse) (partRes : Nat → HttpResponse) (readBack : Option RBody)
    (hok : resOk u = true) (hbody : u.body ≠ none)
    (hsmall : contentLengthOf u ≤ partSize) :
    partSize = 262144000
    ∧ (hget u.headers "content-length" = none → contentLengthOf u = 0)
    ∧ (importBlob name dg u partRes readBack).events
        = [StoreEvent.putObject (name ++ "/blobs/" ++ dg.digest)]
    ∧ (importBlob name dg u partRes readBack).ranges = []
    ∧ (importBlob name dg u partRes readBack).result
        = Except.ok (finishImport u readBack) := by
  have hcond : ¬(resOk u = false ∨ u.body = none) := by
    simp [hok, hbody]
  have hnb : ¬(contentLengthOf u > partSize) := by omega
  refine ⟨by decide, ?_, ?_, ?_, ?_⟩
  · intro h
    simp [contentLengthOf, h]
  · simp [importBlob, hcond, hnb]
  · simp [importBlob, hcond, hnb]
  · simp [importBlob, hcond, hnb]

/-- Witness for C8: an upstream response with no content-length header gets a
single-shot put. -/
theorem importBlob_single_shot_witness :
    (importBlob "r" ⟨"sha256", "aa", "sha256:aa"⟩ ⟨200, hempty, some (RBody.content "b")⟩
        (fun _ => ⟨200, hempty, none⟩) (some (RBody.content "b"))).events
      = [StoreEvent.putObject "r/blobs/sha256:aa"] :=
  (importBlob_single_shot "r" ⟨"sha256", "aa", "sha256:aa"⟩
      ⟨200, hempty, some (RBody.content "b")⟩ (fun _ => ⟨200, hempty, none⟩)
      (some (RBody.content "b")) (by decide) (by decide) (by decide)).2.2.1

/-! ## The import traversal -/

theorem imageMediaTypes_props (mt : String) (h : mt ∈ imageMediaTypes) :
    mt ≠ "" ∧ mt ∉ indexMediaTypes := by
  simp [imageMediaTypes] at h
  rcases h with rfl | rfl <;> exact ⟨by decide, by decide⟩

theorem indexMediaTypes_ne_empty (mt : String) (h : mt ∈ indexMediaTypes) :
    mt ≠ "" := by
  simp [indexMediaTypes] at h
  rcases h with rfl | rfl <;> decide

/-- The layer loop of `importAll` implements the spec-side blob walk. -/
theorem importLayers_of_walk (name : String) :
    ∀ (ls : List Descriptor) (st st' : ImportState),
    specImageBlobWalk name ls st = some st' →
    importLayers name ls st = Except.ok st' := by
  intro ls
  induction ls with
  | nil =>
    intro st st' h
    simp [specImageBlobWalk] at h
    simp [importLayers, h]
  | cons d rest ih =>
    intro st st' h
    cases hp : parseDigest d.digest with
    | none => simp [specImageBlobWalk, hp] at h
    | some dg =>
      rw [show importLayers name (d :: rest) st
          = importLayers name rest (importBlobStep name dg st) from by
        simp [importLayers, hp]]
      apply ih
      rw [show specImageBlobWalk name (d :: rest) st
          = specImageBlobWalk name rest (importBlobStep name dg st) from by
        by_cases hmem : (name ++ "/blobs/" ++ dg.digest) ∈ st.blobs <;>
          simp [specImageBlobWalk, hp, importBlobStep, hmem]] at h
      exact h

/-- C4.  `importAll` (one recursion level, at fuel `fuel + 1`) fetches and
stores the manifest (the `manifestStored` event), then dispatches on its media
type: a failed fetch, a missing (or empty, which is falsy) `mediaType`, and an
unrecognized `mediaType` each fail; an index/manifest-list recurses into the
listed descriptors in order through `forEachManifest`, which fails on an
invalid descriptor digest and otherwise sequences the recursive calls; a
single-image manifest fails on an invalid config digest and otherwise refines
the spec-side walk over config-then-layers that skips exactly the blobs whose
keys already exist (existence check only). -/
theorem importAll_dispatch (mfs : String → Option ManifestContent) (name : String)
    (fuel : Nat) (dg : Digest) (st : ImportState) :
    (mfs dg.digest = none →
      importAll mfs name (fuel + 1) dg st = Except.error "failed to fetch manifest")
    ∧ (∀ content, mfs dg.digest = some content → content.mediaType = none →
        importAll mfs name (fuel + 1) dg st = Except.error "missing mediaType")
    ∧ (∀ content mt, mfs dg.digest = some content → content.mediaType = some mt →
        mt ≠ "" → mt ∉ indexMediaTypes → mt ∉ imageMediaTypes →
        importAll mfs name (fuel + 1) dg st = Except.error "unknown content")
    ∧ (∀ content mt ds, mfs dg.digest = some content → content.mediaType = some mt →
        mt ∈ indexMediaTypes → content.manifests = some ds →
        importAll mfs name (fuel + 1) dg st
          = forEachManifest (fun d s => importAll mfs name fuel d s) ds
              ⟨st.blobs, st.events ++ [ImportEvent.manifestStored dg.digest]⟩)
    ∧ (∀ (f : Digest → ImportState → Except String ImportState) d rest s2,
        parseDigest d.digest = none →
        forEachManifest f (d :: rest) s2
          = Except.error ("invalid manifest digest: " ++ d.digest))
    ∧ (∀ (f : Digest → ImportState → Except String ImportState) d rest s2 pd,
        parseDigest d.digest = some pd →
        forEachManifest f (d :: rest) s2
          = (f pd s2).bind (fun s3 => forEachManifest f rest s3))
    ∧ (∀ content mt cfg, mfs dg.digest = some content → content.mediaType = some mt →
        mt ∈ imageMediaTypes → content.config = some cfg →
        parseDigest cfg.digest = none →
        importAll mfs name (fuel + 1) dg st
          = Except.error ("invalid config digest: " ++ cfg.digest))
    ∧ (∀ content mt cfg ls st', mfs dg.digest = some content →
        content.mediaType = some mt → mt ∈ imageMediaTypes →
        content.config = some cfg → content.layers = some ls →
        specImageBlobWalk name (cfg :: ls)
            ⟨st.blobs, st.events ++ [ImportEvent.manifestStored dg.digest]⟩ = some st' →
        importAll mfs name (fuel + 1) dg st = Except.ok st') := by
  have hstep : importAll mfs name (fuel + 1) dg st
      = importStep (fun d s => importAll mfs name fuel d s) mfs name dg st := rfl
  refine ⟨?_, ?_, ?_, ?_, ?_, ?_, ?_, ?_⟩
  · intro h
    rw [hstep]; simp [importStep, h]
  · intro content h1 h2
    rw [hstep]; simp [importStep, h1, h2]
  · intro content mt h1 h2 h3 h4 h5
    rw [hstep]; simp [importStep, h1, h2, h3, h4, h5]
  · intro content mt ds h1 h2 h3 h4
    have hne := indexMediaTypes_ne_empty mt h3
    rw [hstep]; simp [importStep, h1, h2, h3, h4, hne]
  · intro f d rest s2 h
    simp [forEachManifest, h]
  · intro f d rest s2 pd h
    cases hf : f pd s2 <;> simp [forEachManifest, h, Except.bind, hf]
  · intro content mt cfg h1 h2 h3 h4 h5
    obtain ⟨hne, hnidx⟩ := imageMediaTypes_props mt h3
    rw [hstep]; simp [importStep, h1, h2, h3, h4, h5, hne, hnidx]
  · intro content mt cfg ls st' h1 h2 h3 h4 h5 hwalk
    obtain ⟨hne, hnidx⟩ := imageMediaTypes_props mt h3
    cases hp : parseDigest cfg.digest with
    | none => simp [specImageBlobWalk, hp] at hwalk
    | some cdg =>
      have hwalk' : specImageBlobWalk name ls
          (importBlobStep name cdg
            ⟨st.blobs, st.events ++ [ImportEvent.manifestStored dg.digest]⟩) = some st' := by
        rw [show specImageBlobWalk name (cfg :: ls)
              ⟨st.blobs, st.events ++ [ImportEvent.manifestStored dg.digest]⟩
            = specImageBlobWalk name ls
                (importBlobStep name cdg
                  ⟨st.blobs, st.events ++ [ImportEvent.manifestStored dg.digest]⟩) from by
          by_cases hmem : (name ++ "/blobs/" ++ cdg.digest)
              ∈ (ImportState.mk st.blobs
                  (st.events ++ [ImportEvent.manifestStored dg.digest])).blobs <;>
            simp [specImageBlobWalk, hp, importBlobStep, hmem]] at hwalk
        exact hwalk
      rw [hstep]
      simp only [importStep, h1, h2]
      rw [if_neg (by simp [hne]), if_neg (by simp [hnidx]), if_pos h3]
      simp only [h4, h5, hp]
      exact importLayers_of_walk name ls _ _ hwalk'

/-- Witness for C4: a concrete single-image manifest whose config and single
layer share a digest — the config is imported, the layer is skipped. -/
theorem importAll_dispatch_witness :
    importAll (fun s => if s = "sha256:aa" then
        some ⟨some "application/vnd.oci.image.manifest.v1+json", none,
          some ⟨"c", "sha256:cc", 3⟩, some [⟨"l", "sha256:cc", 4⟩]⟩ else none)
      "r" 1 ⟨"sha256", "aa", "sha256:aa"⟩ ⟨[], []⟩
      = Except.ok ⟨["r/blobs/sha256:cc"],
          [ImportEvent.manifestStored "sha256:aa", ImportEvent.blobImported "sha256:cc",
           ImportEvent.blobSkipped "sha256:cc"]⟩ :=
  (importAll_dispatch (fun s => if s = "sha256:aa" then
        some ⟨some "application/vnd.oci.image.manifest.v1+json", none,
          some ⟨"c", "sha256:cc", 3⟩, some [⟨"l", "sha256:cc", 4⟩]⟩ else none)
      "r" 0 ⟨"sha256", "aa", "sha256:aa"⟩ ⟨[], []⟩).2.2.2.2.2.2.2
    ⟨some "application/vnd.oci.image.manifest.v1+json", none,
      some ⟨"c", "sha256:cc", 3⟩, some [⟨"l", "sha256:cc", 4⟩]⟩
    "application/vnd.oci.image.manifest.v1+json"
    ⟨"c", "sha256:cc", 3⟩ [⟨"l", "sha256:cc", 4⟩]
    ⟨["r/blobs/sha256:cc"],
      [ImportEvent.manifestStored "sha256:aa", ImportEvent.blobImported "sha256:cc",
       ImportEvent.blobSkipped "sha256:cc"]⟩
    (by decide) rfl (by decide) rfl rfl (by decide)

end Depot
